import Mathlib

/-!
Shallow embedding of the transaction engine (composer, classifier, converter,
fee estimator) of the `transactions` service, together with proofs about the
claims of its specification.

Conventions of the embedding:
* Machine integers (`u128` amounts) are `Nat` with explicit checked
  operations where the source uses them.
* Database repositories and remote clients are oracles: pure functions
  carried in an environment record.  The transactions repository is a list
  of inserted rows threaded through the composer.
* Fallible Rust code returning `Result` becomes `Except`; code that can
  panic (`unwrap`, out-of-bounds indexing) returns a result type with an
  explicit `crash` constructor.
* Rust field names are kept, except that `from` is a Lean keyword and is
  rendered `from_` (matching the `from_`/`to_` spelling the source itself
  uses for pending blockchain transactions).
-/

/-- `u128` amounts in a currency's smallest unit. -/
abbrev Amount := Nat

abbrev UserId := Nat
abbrev AccountId := Nat
abbrev TransactionId := Nat
abbrev BlockchainAddress := Nat
abbrev BlockchainTransactionId := Nat
abbrev ExchangeId := Nat

/-- Modelled from the spec: §4.4 allocates subsequent posting ids by
`id.next()` (`transaction_id.rs` is not under `src/`); we model the id space
as `Nat` with `next = succ`. -/
def TransactionId.next (id : TransactionId) : TransactionId := id + 1

/-- `u128::checked_add`. -/
def Amount.checked_add (a b : Amount) : Option Amount :=
  if a + b < 2 ^ 128 then some (a + b) else none

/-- `u128::checked_div`: `none` exactly on a zero divisor. -/
def Amount.checked_div (a b : Amount) : Option Amount :=
  if b = 0 then none else some (a / b)

inductive Currency where
  | btc
  | eth
  | stq
deriving DecidableEq

inductive AccountKind where
  | dr
  | cr
deriving DecidableEq

inductive TransactionStatus where
  | pending
  | done
deriving DecidableEq

inductive TransactionKind where
  | internal
  | withdrawal
  | fee
  | blockchainFee
  | multiFrom
  | multiTo
  | deposit
  | approval
deriving DecidableEq

inductive TransactionGroupKind where
  | internal
  | withdrawal
  | internalMulti
  | withdrawalMulti
  | deposit
  | approval
deriving DecidableEq

inductive ErrorContext where
  | invalidCurrency
  | invalidTransaction
  | notEnoughFunds
  | invalidValue
  | balanceOverflow
  | invalidTransactionStructure
  | noAccount
  | missingExchangeRate
  | invalidUuid
  | invalidToken
  | noTransaction
  | validation
  | other
deriving DecidableEq

inductive ErrorKind where
  | unauthorized
  | notFound
  | malformedInput
  | invalidInput
  | balance
  | internal
deriving DecidableEq

/-- A service error: the `ectx!` context together with the `ErrorKind`. -/
structure SErr where
  context : ErrorContext
  kind : ErrorKind
deriving DecidableEq

structure Account where
  id : AccountId
  user_id : UserId
  currency : Currency
  kind : AccountKind
  address : BlockchainAddress
deriving DecidableEq

structure AccountWithBalance where
  account : Account
  balance : Amount
deriving DecidableEq

/-- A stored posting (row of the transactions table), as used by
`services/transactions/mod.rs` and `converter.rs`. -/
structure Transaction where
  id : TransactionId
  gid : TransactionId
  user_id : UserId
  dr_account_id : AccountId
  cr_account_id : AccountId
  currency : Currency
  value : Amount
  status : TransactionStatus
  blockchain_tx_id : Option BlockchainTransactionId
  kind : TransactionKind
  group_kind : TransactionGroupKind
  related_tx : Option TransactionId
  created_at : Nat
  updated_at : Nat
deriving DecidableEq

/-- A posting to be inserted (`NewTransaction`). -/
structure NewTransaction where
  id : TransactionId
  gid : TransactionId
  user_id : UserId
  dr_account_id : AccountId
  cr_account_id : AccountId
  currency : Currency
  value : Amount
  status : TransactionStatus
  blockchain_tx_id : Option BlockchainTransactionId
  kind : TransactionKind
  group_kind : TransactionGroupKind
  related_tx : Option TransactionId
deriving DecidableEq

/-- `transactions_repo.create` materializes a row; timestamps come from the
database clock, modelled by the environment's `now`. -/
def NewTransaction.toTransaction (tx : NewTransaction) (now : Nat) : Transaction :=
  { id := tx.id, gid := tx.gid, user_id := tx.user_id,
    dr_account_id := tx.dr_account_id, cr_account_id := tx.cr_account_id,
    currency := tx.currency, value := tx.value, status := tx.status,
    blockchain_tx_id := tx.blockchain_tx_id, kind := tx.kind,
    group_kind := tx.group_kind, related_tx := tx.related_tx,
    created_at := now, updated_at := now }

/-- The state of the transactions repository: the list of inserted rows. -/
abbrev DB := List Transaction

/-- Receipt: the `to` field of a creation input, readable as an account id
(`to_account_id`, fallible) or as a blockchain address. -/
structure Receipt where
  to_account_id : Option AccountId
  to_account_address : BlockchainAddress

inductive ReceiptType where
  | account
  | address
deriving DecidableEq

structure CreateTransactionInput where
  id : TransactionId
  user_id : UserId
  from_ : AccountId
  to_ : Receipt
  to_type : ReceiptType
  to_currency : Currency
  value : Amount
  value_currency : Currency
  fee : Amount
  exchange_id : Option ExchangeId
  exchange_rate : Option Float

structure FeeEstimate where
  gross_fee : Amount
  fee_price : Float
  currency : Currency

structure ExchangeInput where
  id : ExchangeId
  from_ : Currency
  to_ : Currency
  rate : Float
  actual_amount : Amount
  amount_currency : Currency

/-- Oracle environment of the composer (`TransactionsServiceImpl`): the
repositories, system service, blockchain service and exchange client it
calls.  Repository reads take the current repository state; `convert` is
`Amount::convert` (whose `amount.rs` is not under `src/`), kept abstract. -/
structure ComposerEnv where
  now : Nat
  get_accounts_balance : DB → UserId → Account → Amount
  get_account_balance : DB → AccountId → AccountKind → Amount
  get_accounts_for_withdrawal :
    Amount → Currency → UserId → Amount → Except SErr (List AccountWithBalance)
  get_system_fees_account : Currency → Except SErr Account
  get_system_liquidity_account : Currency → Except SErr Account
  get_system_transfer_account : Currency → Except SErr Account
  estimate_withdrawal_fee : Amount → Currency → Currency → Except SErr FeeEstimate
  create_blockchain_tx :
    Currency → BlockchainAddress → BlockchainAddress → Amount → Float →
      Except SErr BlockchainTransactionId
  exchange : ExchangeInput → Except SErr Unit
  convert : Amount → Currency → Float → Amount

/-- `TransactionsServiceImpl::create_base_tx` (services/transactions/mod.rs,
lines 120-140): check the two accounts agree in currency and match the
posting's account ids, read the debit account's balance, and insert the
posting iff `balance >= value`. -/
def create_base_tx (env : ComposerEnv) (db : DB) (tx : NewTransaction)
    (dr_account cr_account : Account) : DB × Except SErr Transaction :=
  if dr_account.currency ≠ cr_account.currency then
    (db, .error ⟨.invalidCurrency, .internal⟩)
  else if tx.dr_account_id ≠ dr_account.id ∨ tx.cr_account_id ≠ cr_account.id then
    (db, .error ⟨.invalidTransaction, .internal⟩)
  else if env.get_accounts_balance db tx.user_id dr_account ≥ tx.value then
    let t := tx.toTransaction env.now
    (db ++ [t], .ok t)
  else
    (db, .error ⟨.notEnoughFunds, .balance⟩)

lemma create_base_tx_spec (env : ComposerEnv) (db : DB)
    (tx : NewTransaction) (dr_account cr_account : Account)
    (hcur : dr_account.currency = cr_account.currency)
    (hdr : tx.dr_account_id = dr_account.id)
    (hcr : tx.cr_account_id = cr_account.id) :
    (env.get_accounts_balance db tx.user_id dr_account ≥ tx.value →
      create_base_tx env db tx dr_account cr_account =
        (db ++ [tx.toTransaction env.now], .ok (tx.toTransaction env.now))) ∧
    (env.get_accounts_balance db tx.user_id dr_account < tx.value →
      create_base_tx env db tx dr_account cr_account =
        (db, .error ⟨.notEnoughFunds, .balance⟩)) := by
  refine ⟨fun h => ?_, fun h => ?_⟩
  · simp [create_base_tx, hcur, hdr, hcr, h]
  · simp [create_base_tx, hcur, hdr, hcr, Nat.not_le.mpr h]

/-- C5: `create_base_tx` inserts its posting and succeeds exactly when the
debit account's balance reported by `get_accounts_balance` is at least the
posting's value, and fails with a `Balance`/`NotEnoughFunds` error without
inserting anything when the balance is below the value. -/
theorem claim_c5_create_base_tx (env : ComposerEnv) (db : DB)
    (tx : NewTransaction) (dr_account cr_account : Account)
    (hcur : dr_account.currency = cr_account.currency)
    (hdr : tx.dr_account_id = dr_account.id)
    (hcr : tx.cr_account_id = cr_account.id) :
    (env.get_accounts_balance db tx.user_id dr_account ≥ tx.value →
      create_base_tx env db tx dr_account cr_account =
        (db ++ [tx.toTransaction env.now], .ok (tx.toTransaction env.now))) ∧
    (env.get_accounts_balance db tx.user_id dr_account < tx.value →
      create_base_tx env db tx dr_account cr_account =
        (db, .error ⟨.notEnoughFunds, .balance⟩)) :=
  create_base_tx_spec env db tx dr_account cr_account hcur hdr hcr

def test_account_dr : Account :=
  { id := 1, user_id := 7, currency := .eth, kind := .cr, address := 11 }

def test_account_cr : Account :=
  { id := 2, user_id := 7, currency := .eth, kind := .cr, address := 22 }

def test_new_tx : NewTransaction :=
  { id := 9, gid := 9, user_id := 7, dr_account_id := 1, cr_account_id := 2,
    currency := .eth, value := 5, status := .done, blockchain_tx_id := none,
    kind := .internal, group_kind := .internal, related_tx := none }

/-- An environment whose balance oracle reports exactly the posting's value
(boundary case `balance == value`). -/
def test_env_eq : ComposerEnv where
  now := 0
  get_accounts_balance := fun _ _ _ => 5
  get_account_balance := fun _ _ _ => 5
  get_accounts_for_withdrawal := fun _ _ _ _ => .ok []
  get_system_fees_account := fun _ => .error ⟨.noAccount, .notFound⟩
  get_system_liquidity_account := fun _ => .error ⟨.noAccount, .notFound⟩
  get_system_transfer_account := fun _ => .error ⟨.noAccount, .notFound⟩
  estimate_withdrawal_fee := fun f _ _ => .ok ⟨f, Float.ofNat 1, .eth⟩
  create_blockchain_tx := fun _ _ _ _ _ => .ok 500
  exchange := fun _ => .ok ()
  convert := fun a _ _ => a

/-- Like `test_env_eq` but reporting `value - 1` (boundary case
`balance == value − 1`). -/
def test_env_lt : ComposerEnv :=
  { test_env_eq with
    get_accounts_balance := fun _ _ _ => 4
    get_account_balance := fun _ _ _ => 4 }

theorem claim_c5_witness :
    create_base_tx test_env_eq [] test_new_tx test_account_dr test_account_cr =
      ([test_new_tx.toTransaction 0], .ok (test_new_tx.toTransaction 0)) ∧
    create_base_tx test_env_lt [] test_new_tx test_account_dr test_account_cr =
      ([], .error ⟨.notEnoughFunds, .balance⟩) :=
  ⟨(claim_c5_create_base_tx test_env_eq [] test_new_tx test_account_dr
      test_account_cr rfl rfl rfl).1 (by decide),
   (claim_c5_create_base_tx test_env_lt [] test_new_tx test_account_dr
      test_account_cr rfl rfl rfl).2 (by decide)⟩

/-- The balance double-check and exact-sum loop of
`create_external_mono_currency_tx` (mod.rs, lines 201-219): re-check each
selected account's live `Dr`-side balance against its take and sum the takes
with `checked_add`. -/
def withdrawal_double_check (env : ComposerEnv) (db : DB) :
    List AccountWithBalance → Amount → Except SErr Amount
  | [], total => .ok total
  | awb :: rest, total =>
    if env.get_account_balance db awb.account.id .dr < awb.balance then
      .error ⟨.notEnoughFunds, .balance⟩
    else
      match Amount.checked_add total awb.balance with
      | none => .error ⟨.balanceOverflow, .internal⟩
      | some total1 => withdrawal_double_check env db rest total1

/-- The broadcast-and-record loop of `create_external_mono_currency_tx`
(mod.rs, lines 229-279).  For each selected source account: submit the
blockchain transaction; on success record a `Pending` withdrawal posting via
`create_base_tx` and advance the rolling id; on a broadcast failure abort
with an `Internal` error if nothing was recorded yet, otherwise stop
iterating and keep what was recorded (the source only logs the error). -/
def create_withdrawal_legs (env : ComposerEnv) (input : CreateTransactionInput)
    (gid : TransactionId) (to_blockchain_address : BlockchainAddress)
    (to_currency : Currency) (tx_kind : Option TransactionKind)
    (tx_group_kind : Option TransactionGroupKind) (from_account : Account)
    (fee_price : Float) :
    List AccountWithBalance → DB → List Transaction → TransactionId →
      DB × Except SErr (List Transaction × TransactionId)
  | [], db, res, current_tx_id => (db, .ok (res, current_tx_id))
  | awb :: rest, db, res, current_tx_id =>
    match env.create_blockchain_tx to_currency awb.account.address
        to_blockchain_address awb.balance fee_price with
    | .ok blockchain_tx_id =>
      let new_tx : NewTransaction :=
        { id := current_tx_id, gid := gid, user_id := input.user_id,
          dr_account_id := from_account.id, cr_account_id := awb.account.id,
          currency := to_currency, value := awb.balance, status := .pending,
          blockchain_tx_id := some blockchain_tx_id,
          kind := tx_kind.getD .withdrawal,
          group_kind := tx_group_kind.getD .withdrawal, related_tx := none }
      match create_base_tx env db new_tx from_account awb.account with
      | (db1, .ok t) =>
        create_withdrawal_legs env input gid to_blockchain_address to_currency
          tx_kind tx_group_kind from_account fee_price rest db1 (res ++ [t])
          (TransactionId.next current_tx_id)
      | (db1, .error e) => (db1, .error e)
    | .error e =>
      if res.isEmpty then (db, .error { e with kind := .internal })
      else (db, .ok (res, current_tx_id))

/-- `TransactionsServiceImpl::create_external_mono_currency_tx` (mod.rs,
lines 165-297): estimate the withdrawal fee, select source accounts,
double-check balances and the exact sum, broadcast and record the withdrawal
legs, then append the final `Fee` posting (status `Done`, value `input.fee`,
currency `fee_currency`, debiting `fee_payer_account_id` or the from
account, crediting the system fees account fetched for `to_currency`). -/
def create_external_mono_currency_tx (env : ComposerEnv) (db : DB)
    (input : CreateTransactionInput) (from_account : Account)
    (to_blockchain_address : BlockchainAddress) (to_currency : Currency)
    (gid_opt : Option TransactionId) (tx_kind : Option TransactionKind)
    (tx_group_kind : Option TransactionGroupKind)
    (fee_currency_opt : Option Currency)
    (fee_payer_account_id : Option AccountId) :
    DB × Except SErr (List Transaction) :=
  if from_account.currency ≠ to_currency then
    (db, .error ⟨.invalidCurrency, .internal⟩)
  else
    let gid := gid_opt.getD input.id
    let fee_currency := fee_currency_opt.getD from_account.currency
    match env.estimate_withdrawal_fee input.fee fee_currency to_currency with
    | .error e => (db, .error e)
    | .ok fee_est =>
      match env.get_accounts_for_withdrawal input.value to_currency
          input.user_id fee_est.gross_fee with
      | .error e => (db, .error { e with context := .notEnoughFunds })
      | .ok withdrawal_accs_with_balance =>
        match withdrawal_double_check env db withdrawal_accs_with_balance 0 with
        | .error e => (db, .error e)
        | .ok total_value =>
          if total_value ≠ input.value then
            (db, .error ⟨.invalidValue, .internal⟩)
          else
            match env.get_system_fees_account to_currency with
            | .error e => (db, .error e)
            | .ok fees_account =>
              match create_withdrawal_legs env input gid to_blockchain_address
                  to_currency tx_kind tx_group_kind from_account
                  fee_est.fee_price withdrawal_accs_with_balance db [] input.id with
              | (db1, .error e) => (db1, .error e)
              | (db1, .ok (res, current_tx_id)) =>
                let fee_tx : NewTransaction :=
                  { id := current_tx_id, gid := gid, user_id := input.user_id,
                    dr_account_id := fee_payer_account_id.getD from_account.id,
                    cr_account_id := fees_account.id, currency := fee_currency,
                    value := input.fee, status := .done,
                    blockchain_tx_id := none, kind := .fee,
                    group_kind := tx_group_kind.getD .withdrawal,
                    related_tx := none }
                match create_base_tx env db1 fee_tx from_account fees_account with
                | (db2, .ok t) => (db2, .ok (res ++ [t]))
                | (db2, .error e) => (db2, .error e)

/-- `TransactionsServiceImpl::create_internal_multi_currency_tx` (mod.rs,
lines 299-372): compute the two leg values from `value_currency`, post the
`MultiFrom` and `MultiTo` postings through `create_base_tx`, then call the
exchange client. -/
def create_internal_multi_currency_tx (env : ComposerEnv) (db : DB)
    (input : CreateTransactionInput) (from_account to_account : Account)
    (exchange_id : ExchangeId) (exchange_rate : Float) :
    DB × Except SErr (List Transaction) :=
  let values : Except SErr (Amount × Amount) :=
    if from_account.currency = input.value_currency then
      .ok (input.value, env.convert input.value from_account.currency exchange_rate)
    else if to_account.currency = input.value_currency then
      .ok (env.convert input.value to_account.currency ((1.0 : Float) / exchange_rate),
        input.value)
    else
      .error ⟨.invalidCurrency, .internal⟩
  match values with
  | .error e => (db, .error e)
  | .ok (from_value, to_value) =>
    match env.get_system_liquidity_account from_account.currency with
    | .error e => (db, .error e)
    | .ok from_counterpart_acc =>
      let from_tx : NewTransaction :=
        { id := input.id, gid := input.id, user_id := input.user_id,
          dr_account_id := from_account.id,
          cr_account_id := from_counterpart_acc.id,
          currency := from_account.currency, value := from_value,
          status := .done, blockchain_tx_id := none, kind := .multiFrom,
          group_kind := .internalMulti, related_tx := none }
      match create_base_tx env db from_tx from_account from_counterpart_acc with
      | (db1, .error e) => (db1, .error e)
      | (db1, .ok t1) =>
        match env.get_system_liquidity_account to_account.currency with
        | .error e => (db1, .error e)
        | .ok to_counterpart_acc =>
          let to_tx : NewTransaction :=
            { id := TransactionId.next input.id, gid := input.id,
              user_id := input.user_id, dr_account_id := to_account.id,
              cr_account_id := to_counterpart_acc.id,
              currency := to_account.currency, value := to_value,
              status := .done, blockchain_tx_id := none, kind := .multiTo,
              group_kind := .internalMulti, related_tx := none }
          match create_base_tx env db1 to_tx to_account to_counterpart_acc with
          | (db2, .error e) => (db2, .error e)
          | (db2, .ok t2) =>
            match env.exchange
                { id := exchange_id, from_ := from_account.currency,
                  to_ := to_account.currency, rate := exchange_rate,
                  actual_amount := input.value,
                  amount_currency := input.value_currency } with
            | .error e => (db2, .error e)
            | .ok _ => (db2, .ok [t1, t2])

/-- The withdrawal posting recorded for one successfully broadcast source
account (the `new_tx` of mod.rs, lines 249-262, as inserted). -/
def mk_withdrawal_leg (env : ComposerEnv) (input : CreateTransactionInput)
    (gid : TransactionId) (to_currency : Currency)
    (tx_kind : Option TransactionKind)
    (tx_group_kind : Option TransactionGroupKind) (from_account : Account)
    (awb : AccountWithBalance) (blockchain_tx_id : BlockchainTransactionId)
    (current_tx_id : TransactionId) : Transaction :=
  NewTransaction.toTransaction
    { id := current_tx_id, gid := gid, user_id := input.user_id,
      dr_account_id := from_account.id, cr_account_id := awb.account.id,
      currency := to_currency, value := awb.balance, status := .pending,
      blockchain_tx_id := some blockchain_tx_id,
      kind := tx_kind.getD .withdrawal,
      group_kind := tx_group_kind.getD .withdrawal, related_tx := none }
    env.now

/-- The withdrawal postings recorded for a run of successfully broadcast
source accounts, with sequentially allocated ids. -/
def mk_withdrawal_legs (env : ComposerEnv) (input : CreateTransactionInput)
    (gid : TransactionId) (to_currency : Currency)
    (tx_kind : Option TransactionKind)
    (tx_group_kind : Option TransactionGroupKind) (from_account : Account)
    (bcid : AccountWithBalance → BlockchainTransactionId) :
    List AccountWithBalance → TransactionId → List Transaction
  | [], _ => []
  | awb :: rest, current_tx_id =>
    mk_withdrawal_leg env input gid to_currency tx_kind tx_group_kind
        from_account awb (bcid awb) current_tx_id ::
      mk_withdrawal_legs env input gid to_currency tx_kind tx_group_kind
        from_account bcid rest (TransactionId.next current_tx_id)

lemma create_withdrawal_legs_prefix_ok (env : ComposerEnv)
    (input : CreateTransactionInput) (gid : TransactionId)
    (to_blockchain_address : BlockchainAddress) (to_currency : Currency)
    (tx_kind : Option TransactionKind)
    (tx_group_kind : Option TransactionGroupKind) (from_account : Account)
    (fee_price : Float) (bcid : AccountWithBalance → BlockchainTransactionId)
    (failA : AccountWithBalance) (e : SErr) (rest : List AccountWithBalance)
    (hfail : env.create_blockchain_tx to_currency failA.account.address
      to_blockchain_address failA.balance fee_price = .error e) :
    ∀ (pre : List AccountWithBalance) (db : DB) (res : List Transaction)
      (current_tx_id : TransactionId),
      (∀ a ∈ pre, env.create_blockchain_tx to_currency a.account.address
        to_blockchain_address a.balance fee_price = .ok (bcid a)) →
      (∀ a ∈ pre, a.account.currency = from_account.currency) →
      (∀ (d : DB), ∀ a ∈ pre,
        a.balance ≤ env.get_accounts_balance d input.user_id from_account) →
      (res = [] → pre ≠ []) →
      create_withdrawal_legs env input gid to_blockchain_address to_currency
          tx_kind tx_group_kind from_account fee_price (pre ++ failA :: rest)
          db res current_tx_id =
        (db ++ mk_withdrawal_legs env input gid to_currency tx_kind
            tx_group_kind from_account bcid pre current_tx_id,
         .ok (res ++ mk_withdrawal_legs env input gid to_currency tx_kind
            tx_group_kind from_account bcid pre current_tx_id,
          current_tx_id + pre.length)) := by
  intro pre
  induction pre with
  | nil =>
    intro db res current_tx_id _ _ _ hne
    cases res with
    | nil => exact absurd rfl (hne rfl)
    | cons r rs =>
      simp [create_withdrawal_legs, hfail, mk_withdrawal_legs]
  | cons a pre ih =>
    intro db res current_tx_id hok hacc hbal _
    have hbc : env.create_blockchain_tx to_currency a.account.address
        to_blockchain_address a.balance fee_price = .ok (bcid a) :=
      hok a (List.mem_cons_self a pre)
    have hcurA : a.account.currency = from_account.currency :=
      hacc a (List.mem_cons_self a pre)
    have hbalA : a.balance ≤ env.get_accounts_balance db input.user_id from_account :=
      hbal db a (List.mem_cons_self a pre)
    have hbase : create_base_tx env db
        { id := current_tx_id, gid := gid, user_id := input.user_id,
          dr_account_id := from_account.id, cr_account_id := a.account.id,
          currency := to_currency, value := a.balance, status := .pending,
          blockchain_tx_id := some (bcid a),
          kind := tx_kind.getD .withdrawal,
          group_kind := tx_group_kind.getD .withdrawal, related_tx := none }
        from_account a.account =
      (db ++ [mk_withdrawal_leg env input gid to_currency tx_kind tx_group_kind
          from_account a (bcid a) current_tx_id],
       .ok (mk_withdrawal_leg env input gid to_currency tx_kind tx_group_kind
          from_account a (bcid a) current_tx_id)) := by
      simp [create_base_tx, hcurA, hbalA, mk_withdrawal_leg]
    rw [List.cons_append]
    simp only [create_withdrawal_legs, hbc, hbase]
    rw [ih (db ++ [_]) (res ++ [_]) (TransactionId.next current_tx_id)
      (fun x hx => hok x (List.mem_cons_of_mem a hx))
      (fun x hx => hacc x (List.mem_cons_of_mem a hx))
      (fun d x hx => hbal d x (List.mem_cons_of_mem a hx))
      (by simp)]
    simp [mk_withdrawal_legs, TransactionId.next, List.append_assoc]
    rw [Nat.add_right_comm, Nat.add_assoc]

/-- C1: partial-broadcast policy of `create_external_mono_currency_tx`.
First conjunct: when the blockchain broadcast for the first selected source
account fails, the operation returns an error and no withdrawal posting of
the group is recorded (the repository is unchanged).  Second conjunct: when
a broadcast fails after at least one earlier broadcast in the same group
succeeded, no error is returned for that failure, iteration over the
remaining source accounts stops, and the already-recorded withdrawal
postings plus the final `Fee` posting are created and committed. -/
theorem claim_c1_partial_broadcast :
    (∀ (env : ComposerEnv) (db : DB) (input : CreateTransactionInput)
      (from_account : Account) (to_blockchain_address : BlockchainAddress)
      (to_currency : Currency) (gid_opt : Option TransactionId)
      (tx_kind : Option TransactionKind)
      (tx_group_kind : Option TransactionGroupKind)
      (fee_currency_opt : Option Currency)
      (fee_payer_account_id : Option AccountId) (fee_est : FeeEstimate)
      (failA : AccountWithBalance) (rest : List AccountWithBalance)
      (fees_account : Account) (e : SErr),
      from_account.currency = to_currency →
      env.estimate_withdrawal_fee input.fee
        (fee_currency_opt.getD from_account.currency) to_currency = .ok fee_est →
      env.get_accounts_for_withdrawal input.value to_currency input.user_id
        fee_est.gross_fee = .ok (failA :: rest) →
      withdrawal_double_check env db (failA :: rest) 0 = .ok input.value →
      env.get_system_fees_account to_currency = .ok fees_account →
      env.create_blockchain_tx to_currency failA.account.address
        to_blockchain_address failA.balance fee_est.fee_price = .error e →
      create_external_mono_currency_tx env db input from_account
          to_blockchain_address to_currency gid_opt tx_kind tx_group_kind
          fee_currency_opt fee_payer_account_id =
        (db, .error ⟨e.context, .internal⟩)) ∧
    (∀ (env : ComposerEnv) (db : DB) (input : CreateTransactionInput)
      (from_account : Account) (to_blockchain_address : BlockchainAddress)
      (to_currency : Currency) (gid_opt : Option TransactionId)
      (tx_kind : Option TransactionKind)
      (tx_group_kind : Option TransactionGroupKind)
      (fee_currency_opt : Option Currency)
      (fee_payer_account_id : Option AccountId) (fee_est : FeeEstimate)
      (pre : List AccountWithBalance) (failA : AccountWithBalance)
      (rest : List AccountWithBalance) (fees_account : Account) (e : SErr)
      (bcid : AccountWithBalance → BlockchainTransactionId),
      from_account.currency = to_currency →
      env.estimate_withdrawal_fee input.fee
        (fee_currency_opt.getD from_account.currency) to_currency = .ok fee_est →
      env.get_accounts_for_withdrawal input.value to_currency input.user_id
        fee_est.gross_fee = .ok (pre ++ failA :: rest) →
      withdrawal_double_check env db (pre ++ failA :: rest) 0 = .ok input.value →
      env.get_system_fees_account to_currency = .ok fees_account →
      pre ≠ [] →
      (∀ a ∈ pre, env.create_blockchain_tx to_currency a.account.address
        to_blockchain_address a.balance fee_est.fee_price = .ok (bcid a)) →
      env.create_blockchain_tx to_currency failA.account.address
        to_blockchain_address failA.balance fee_est.fee_price = .error e →
      (∀ a ∈ pre, a.account.currency = from_account.currency) →
      (∀ (d : DB), ∀ a ∈ pre,
        a.balance ≤ env.get_accounts_balance d input.user_id from_account) →
      fees_account.currency = from_account.currency →
      fee_payer_account_id.getD from_account.id = from_account.id →
      (∀ (d : DB), input.fee ≤ env.get_accounts_balance d input.user_id from_account) →
      create_external_mono_currency_tx env db input from_account
          to_blockchain_address to_currency gid_opt tx_kind tx_group_kind
          fee_currency_opt fee_payer_account_id =
        (db ++ (mk_withdrawal_legs env input (gid_opt.getD input.id) to_currency
            tx_kind tx_group_kind from_account bcid pre input.id ++
          [NewTransaction.toTransaction
            { id := input.id + pre.length, gid := gid_opt.getD input.id,
              user_id := input.user_id,
              dr_account_id := fee_payer_account_id.getD from_account.id,
              cr_account_id := fees_account.id,
              currency := fee_currency_opt.getD from_account.currency,
              value := input.fee, status := .done, blockchain_tx_id := none,
              kind := .fee, group_kind := tx_group_kind.getD .withdrawal,
              related_tx := none } env.now]),
         .ok (mk_withdrawal_legs env input (gid_opt.getD input.id) to_currency
            tx_kind tx_group_kind from_account bcid pre input.id ++
          [NewTransaction.toTransaction
            { id := input.id + pre.length, gid := gid_opt.getD input.id,
              user_id := input.user_id,
              dr_account_id := fee_payer_account_id.getD from_account.id,
              cr_account_id := fees_account.id,
              currency := fee_currency_opt.getD from_account.currency,
              value := input.fee, status := .done, blockchain_tx_id := none,
              kind := .fee, group_kind := tx_group_kind.getD .withdrawal,
              related_tx := none } env.now]))) := by
  constructor
  · intro env db input from_account to_blockchain_address to_currency gid_opt
      tx_kind tx_group_kind fee_currency_opt fee_payer_account_id fee_est
      failA rest fees_account e hcur hest hsel hchk hfees hfail
    subst hcur
    simp [create_external_mono_currency_tx, hest, hsel, hchk, hfees,
      create_withdrawal_legs, hfail]
  · intro env db input from_account to_blockchain_address to_currency gid_opt
      tx_kind tx_group_kind fee_currency_opt fee_payer_account_id fee_est
      pre failA rest fees_account e bcid hcur hest hsel hchk hfees hpre hok
      hfail hacc hbal hfeescur hpayer hfeebal
    subst hcur
    have hloop := create_withdrawal_legs_prefix_ok env input
      (gid_opt.getD input.id) to_blockchain_address from_account.currency
      tx_kind tx_group_kind from_account fee_est.fee_price bcid failA e rest
      hfail pre db [] input.id hok hacc hbal (fun _ => hpre)
    have hbase : create_base_tx env
        (db ++ mk_withdrawal_legs env input (gid_opt.getD input.id)
          from_account.currency tx_kind tx_group_kind from_account bcid pre
          input.id)
        { id := input.id + pre.length, gid := gid_opt.getD input.id,
          user_id := input.user_id,
          dr_account_id := fee_payer_account_id.getD from_account.id,
          cr_account_id := fees_account.id,
          currency := fee_currency_opt.getD from_account.currency,
          value := input.fee, status := .done, blockchain_tx_id := none,
          kind := .fee, group_kind := tx_group_kind.getD .withdrawal,
          related_tx := none } from_account fees_account =
      ((db ++ mk_withdrawal_legs env input (gid_opt.getD input.id)
          from_account.currency tx_kind tx_group_kind from_account bcid pre
          input.id) ++
        [NewTransaction.toTransaction
          { id := input.id + pre.length, gid := gid_opt.getD input.id,
            user_id := input.user_id,
            dr_account_id := fee_payer_account_id.getD from_account.id,
            cr_account_id := fees_account.id,
            currency := fee_currency_opt.getD from_account.currency,
            value := input.fee, status := .done, blockchain_tx_id := none,
            kind := .fee, group_kind := tx_group_kind.getD .withdrawal,
            related_tx := none } env.now],
       .ok (NewTransaction.toTransaction
          { id := input.id + pre.length, gid := gid_opt.getD input.id,
            user_id := input.user_id,
            dr_account_id := fee_payer_account_id.getD from_account.id,
            cr_account_id := fees_account.id,
            currency := fee_currency_opt.getD from_account.currency,
            value := input.fee, status := .done, blockchain_tx_id := none,
            kind := .fee, group_kind := tx_group_kind.getD .withdrawal,
            related_tx := none } env.now)) := by
      simp [create_base_tx, hfeescur, hpayer, hfeebal]
    simp [create_external_mono_currency_tx, hest, hsel, hchk, hfees, hloop,
      hbase, List.append_assoc]

def acct_w_from : Account :=
  { id := 1, user_id := 7, currency := .btc, kind := .cr, address := 10 }

def acct_w_dep1 : Account :=
  { id := 3, user_id := 7, currency := .btc, kind := .dr, address := 31 }

def acct_w_dep2 : Account :=
  { id := 4, user_id := 7, currency := .btc, kind := .dr, address := 32 }

def acct_w_fees : Account :=
  { id := 5, user_id := 0, currency := .btc, kind := .cr, address := 50 }

/-- Withdrawal scenario: two selected source accounts with takes 3 and 5;
only the first source address broadcasts successfully. -/
def env_w : ComposerEnv :=
  { test_env_eq with
    get_accounts_balance := fun _ _ _ => 100
    get_account_balance := fun _ _ _ => 100
    get_accounts_for_withdrawal := fun _ _ _ _ =>
      .ok [⟨acct_w_dep1, 3⟩, ⟨acct_w_dep2, 5⟩]
    get_system_fees_account := fun _ => .ok acct_w_fees
    estimate_withdrawal_fee := fun f _ _ => .ok ⟨f, Float.ofNat 1, .btc⟩
    create_blockchain_tx := fun _ from_addr _ _ _ =>
      if from_addr = 31 then .ok 500 else .error ⟨.other, .internal⟩ }

/-- Like `env_w` but every broadcast fails (so the first one does). -/
def env_w_fail : ComposerEnv :=
  { env_w with create_blockchain_tx := fun _ _ _ _ _ => .error ⟨.other, .internal⟩ }

def input_w : CreateTransactionInput :=
  { id := 30, user_id := 7, from_ := 1, to_ := ⟨none, 99⟩, to_type := .address,
    to_currency := .btc, value := 8, value_currency := .btc, fee := 4,
    exchange_id := none, exchange_rate := none }

theorem claim_c1_witness :
    create_external_mono_currency_tx env_w_fail [] input_w acct_w_from 99 .btc
        none none none none none =
      ([], .error ⟨.other, .internal⟩) ∧
    create_external_mono_currency_tx env_w [] input_w acct_w_from 99 .btc
        none none none none none =
      (mk_withdrawal_legs env_w input_w 30 .btc none none acct_w_from
          (fun _ => 500) [⟨acct_w_dep1, 3⟩] 30 ++
        [NewTransaction.toTransaction
          { id := 31, gid := 30, user_id := 7, dr_account_id := 1,
            cr_account_id := 5, currency := .btc, value := 4, status := .done,
            blockchain_tx_id := none, kind := .fee, group_kind := .withdrawal,
            related_tx := none } 0],
       .ok (mk_withdrawal_legs env_w input_w 30 .btc none none acct_w_from
          (fun _ => 500) [⟨acct_w_dep1, 3⟩] 30 ++
        [NewTransaction.toTransaction
          { id := 31, gid := 30, user_id := 7, dr_account_id := 1,
            cr_account_id := 5, currency := .btc, value := 4, status := .done,
            blockchain_tx_id := none, kind := .fee, group_kind := .withdrawal,
            related_tx := none } 0])) := by
  constructor
  · exact claim_c1_partial_broadcast.1 env_w_fail [] input_w acct_w_from 99
      .btc none none none none none ⟨4, Float.ofNat 1, .btc⟩ ⟨acct_w_dep1, 3⟩
      [⟨acct_w_dep2, 5⟩] acct_w_fees ⟨.other, .internal⟩ rfl rfl rfl rfl
      rfl rfl
  · exact claim_c1_partial_broadcast.2 env_w [] input_w acct_w_from 99 .btc
      none none none none none ⟨4, Float.ofNat 1, .btc⟩ [⟨acct_w_dep1, 3⟩]
      ⟨acct_w_dep2, 5⟩ [] acct_w_fees ⟨.other, .internal⟩ (fun _ => 500) rfl
      rfl rfl rfl rfl (by decide)
      (by intro a ha; rw [List.mem_singleton] at ha; subst ha; rfl) rfl
      (by intro a ha; rw [List.mem_singleton] at ha; subst ha; rfl)
      (by intro d a ha; rw [List.mem_singleton] at ha; subst ha
          show (3 : Nat) ≤ 100; decide)
      rfl rfl (by intro d; show (4 : Nat) ≤ 100; decide)

def acct_m_user : Account :=
  { id := 1, user_id := 7, currency := .eth, kind := .cr, address := 10 }

def acct_m_transfer : Account :=
  { id := 2, user_id := 0, currency := .btc, kind := .cr, address := 20 }

def acct_m_dep : Account :=
  { id := 3, user_id := 7, currency := .btc, kind := .dr, address := 31 }

def acct_m_fees_btc : Account :=
  { id := 6, user_id := 0, currency := .btc, kind := .cr, address := 60 }

/-- Cross-currency withdrawal scenario (the overrides passed by
`create_external_multi_currency_tx`, mod.rs lines 403-413): one selected
source account whose broadcast succeeds. -/
def env_m : ComposerEnv :=
  { env_w with
    get_accounts_for_withdrawal := fun _ _ _ _ => .ok [⟨acct_m_dep, 8⟩]
    get_system_fees_account := fun _ => .ok acct_m_fees_btc
    create_blockchain_tx := fun _ _ _ _ _ => .ok 700 }

def input_m : CreateTransactionInput :=
  { id := 32, user_id := 7, from_ := 2, to_ := ⟨none, 99⟩, to_type := .address,
    to_currency := .btc, value := 8, value_currency := .btc, fee := 4,
    exchange_id := some 11, exchange_rate := none }

/-- C2: evaluating `create_external_mono_currency_tx` with the overrides the
cross-currency wrapper passes (`fee_currency = from.currency` of the user's
original ETH account, `fee_payer_account_id = the user's account id`, the
from account being the system BTC transfer account).  After the successful
broadcast leg, the fee posting is rejected by `create_base_tx`'s account-id
check (the fee payer override never matches the passed debit account), so
the operation returns an `Internal` error and no `Fee` posting is ever
recorded — the spec's `Fee`(ETH, from → ETH-fees) posting is unrealizable. -/
theorem claim_c2_fee_posting_bug :
    (create_external_mono_currency_tx env_m [] input_m acct_m_transfer 99 .btc
        (some 30) (some .withdrawal) (some .withdrawalMulti) (some .eth)
        (some 1)).2 =
      .error ⟨.invalidTransaction, .internal⟩ ∧
    ((create_external_mono_currency_tx env_m [] input_m acct_m_transfer 99 .btc
        (some 30) (some .withdrawal) (some .withdrawalMulti) (some .eth)
        (some 1)).1.filter (fun t => t.kind = TransactionKind.fee)) = [] :=
  ⟨rfl, rfl⟩

/-- C6 (amended): the leg values of `create_internal_multi_currency_tx`.
If `from.currency = value_currency` the from leg carries `value` and the to
leg the converted amount at `rate`; otherwise if `to.currency =
value_currency` the to leg carries `value` and the from leg the converted
amount at `1/rate`; if `value_currency` matches neither account the
composer fails with an `Internal`-kind error (`InvalidCurrency` context) and
creates no postings. -/
theorem claim_c6_exchange_values (env : ComposerEnv) (db : DB)
    (input : CreateTransactionInput) (from_account to_account : Account)
    (exchange_id : ExchangeId) (exchange_rate : Float) :
    (∀ (from_liq to_liq : Account),
      from_account.currency = input.value_currency →
      env.get_system_liquidity_account from_account.currency = .ok from_liq →
      env.get_system_liquidity_account to_account.currency = .ok to_liq →
      from_liq.currency = from_account.currency →
      to_liq.currency = to_account.currency →
      env.exchange
        { id := exchange_id, from_ := from_account.currency,
          to_ := to_account.currency, rate := exchange_rate,
          actual_amount := input.value,
          amount_currency := input.value_currency } = .ok () →
      (∀ (d : DB), input.value ≤ env.get_accounts_balance d input.user_id from_account) →
      (∀ (d : DB), env.convert input.value from_account.currency exchange_rate ≤
        env.get_accounts_balance d input.user_id to_account) →
      create_internal_multi_currency_tx env db input from_account to_account
          exchange_id exchange_rate =
        (db ++ [NewTransaction.toTransaction
            { id := input.id, gid := input.id, user_id := input.user_id,
              dr_account_id := from_account.id, cr_account_id := from_liq.id,
              currency := from_account.currency, value := input.value,
              status := .done, blockchain_tx_id := none, kind := .multiFrom,
              group_kind := .internalMulti, related_tx := none } env.now,
          NewTransaction.toTransaction
            { id := TransactionId.next input.id, gid := input.id,
              user_id := input.user_id, dr_account_id := to_account.id,
              cr_account_id := to_liq.id, currency := to_account.currency,
              value := env.convert input.value from_account.currency exchange_rate,
              status := .done, blockchain_tx_id := none, kind := .multiTo,
              group_kind := .internalMulti, related_tx := none } env.now],
         .ok [NewTransaction.toTransaction
            { id := input.id, gid := input.id, user_id := input.user_id,
              dr_account_id := from_account.id, cr_account_id := from_liq.id,
              currency := from_account.currency, value := input.value,
              status := .done, blockchain_tx_id := none, kind := .multiFrom,
              group_kind := .internalMulti, related_tx := none } env.now,
          NewTransaction.toTransaction
            { id := TransactionId.next input.id, gid := input.id,
              user_id := input.user_id, dr_account_id := to_account.id,
              cr_account_id := to_liq.id, currency := to_account.currency,
              value := env.convert input.value from_account.currency exchange_rate,
              status := .done, blockchain_tx_id := none, kind := .multiTo,
              group_kind := .internalMulti, related_tx := none } env.now])) ∧
    (∀ (from_liq to_liq : Account),
      from_account.currency ≠ input.value_currency →
      to_account.currency = input.value_currency →
      env.get_system_liquidity_account from_account.currency = .ok from_liq →
      env.get_system_liquidity_account to_account.currency = .ok to_liq →
      from_liq.currency = from_account.currency →
      to_liq.currency = to_account.currency →
      env.exchange
        { id := exchange_id, from_ := from_account.currency,
          to_ := to_account.currency, rate := exchange_rate,
          actual_amount := input.value,
          amount_currency := input.value_currency } = .ok () →
      (∀ (d : DB),
        env.convert input.value to_account.currency ((1.0 : Float) / exchange_rate) ≤
          env.get_accounts_balance d input.user_id from_account) →
      (∀ (d : DB), input.value ≤ env.get_accounts_balance d input.user_id to_account) →
      create_internal_multi_currency_tx env db input from_account to_account
          exchange_id exchange_rate =
        (db ++ [NewTransaction.toTransaction
            { id := input.id, gid := input.id, user_id := input.user_id,
              dr_account_id := from_account.id, cr_account_id := from_liq.id,
              currency := from_account.currency,
              value := env.convert input.value to_account.currency
                ((1.0 : Float) / exchange_rate),
              status := .done, blockchain_tx_id := none, kind := .multiFrom,
              group_kind := .internalMulti, related_tx := none } env.now,
          NewTransaction.toTransaction
            { id := TransactionId.next input.id, gid := input.id,
              user_id := input.user_id, dr_account_id := to_account.id,
              cr_account_id := to_liq.id, currency := to_account.currency,
              value := input.value, status := .done, blockchain_tx_id := none,
              kind := .multiTo, group_kind := .internalMulti,
              related_tx := none } env.now],
         .ok [NewTransaction.toTransaction
            { id := input.id, gid := input.id, user_id := input.user_id,
              dr_account_id := from_account.id, cr_account_id := from_liq.id,
              currency := from_account.currency,
              value := env.convert input.value to_account.currency
                ((1.0 : Float) / exchange_rate),
              status := .done, blockchain_tx_id := none, kind := .multiFrom,
              group_kind := .internalMulti, related_tx := none } env.now,
          NewTransaction.toTransaction
            { id := TransactionId.next input.id, gid := input.id,
              user_id := input.user_id, dr_account_id := to_account.id,
              cr_account_id := to_liq.id, currency := to_account.currency,
              value := input.value, status := .done, blockchain_tx_id := none,
              kind := .multiTo, group_kind := .internalMulti,
              related_tx := none } env.now])) ∧
    (from_account.currency ≠ input.value_currency →
      to_account.currency ≠ input.value_currency →
      create_internal_multi_currency_tx env db input from_account to_account
          exchange_id exchange_rate =
        (db, .error ⟨.invalidCurrency, .internal⟩)) := by
  refine ⟨?_, ?_, ?_⟩
  · intro from_liq to_liq hfrom hliq1 hliq2 hc1 hc2 hex hb1 hb2
    have hbase1 := (create_base_tx_spec env db
      { id := input.id, gid := input.id, user_id := input.user_id,
        dr_account_id := from_account.id, cr_account_id := from_liq.id,
        currency := from_account.currency, value := input.value,
        status := .done, blockchain_tx_id := none, kind := .multiFrom,
        group_kind := .internalMulti, related_tx := none }
      from_account from_liq hc1.symm rfl rfl).1 (hb1 db)
    have hbase2 := (create_base_tx_spec env
      (db ++ [NewTransaction.toTransaction
        { id := input.id, gid := input.id, user_id := input.user_id,
          dr_account_id := from_account.id, cr_account_id := from_liq.id,
          currency := from_account.currency, value := input.value,
          status := .done, blockchain_tx_id := none, kind := .multiFrom,
          group_kind := .internalMulti, related_tx := none } env.now])
      { id := TransactionId.next input.id, gid := input.id,
        user_id := input.user_id, dr_account_id := to_account.id,
        cr_account_id := to_liq.id, currency := to_account.currency,
        value := env.convert input.value from_account.currency exchange_rate,
        status := .done, blockchain_tx_id := none, kind := .multiTo,
        group_kind := .internalMulti, related_tx := none }
      to_account to_liq hc2.symm rfl rfl).1 (hb2 _)
    simp [create_internal_multi_currency_tx, if_pos hfrom, hliq1, hliq2,
      hbase1, hbase2, hex, List.append_assoc]
  · intro from_liq to_liq hfrom hto hliq1 hliq2 hc1 hc2 hex hb1 hb2
    have hbase1 := (create_base_tx_spec env db
      { id := input.id, gid := input.id, user_id := input.user_id,
        dr_account_id := from_account.id, cr_account_id := from_liq.id,
        currency := from_account.currency,
        value := env.convert input.value to_account.currency
          ((1.0 : Float) / exchange_rate),
        status := .done, blockchain_tx_id := none, kind := .multiFrom,
        group_kind := .internalMulti, related_tx := none }
      from_account from_liq hc1.symm rfl rfl).1 (hb1 db)
    have hbase2 := (create_base_tx_spec env
      (db ++ [NewTransaction.toTransaction
        { id := input.id, gid := input.id, user_id := input.user_id,
          dr_account_id := from_account.id, cr_account_id := from_liq.id,
          currency := from_account.currency,
          value := env.convert input.value to_account.currency
            ((1.0 : Float) / exchange_rate),
          status := .done, blockchain_tx_id := none, kind := .multiFrom,
          group_kind := .internalMulti, related_tx := none } env.now])
      { id := TransactionId.next input.id, gid := input.id,
        user_id := input.user_id, dr_account_id := to_account.id,
        cr_account_id := to_liq.id, currency := to_account.currency,
        value := input.value, status := .done, blockchain_tx_id := none,
        kind := .multiTo, group_kind := .internalMulti, related_tx := none }
      to_account to_liq hc2.symm rfl rfl).1 (hb2 _)
    simp [create_internal_multi_currency_tx, if_neg hfrom, if_pos hto, hliq1,
      hliq2, hbase1, hbase2, hex, List.append_assoc]
  · intro hfrom hto
    simp [create_internal_multi_currency_tx, if_neg hfrom, if_neg hto]

def acct_liq_eth : Account :=
  { id := 40, user_id := 0, currency := .eth, kind := .cr, address := 41 }

def acct_liq_stq : Account :=
  { id := 42, user_id := 0, currency := .stq, kind := .cr, address := 43 }

def acct_liq_btc : Account :=
  { id := 44, user_id := 0, currency := .btc, kind := .cr, address := 45 }

def acct_x_to : Account :=
  { id := 2, user_id := 7, currency := .stq, kind := .cr, address := 12 }

/-- Exchange scenario: liquidity accounts per currency, ample balances, the
identity `convert`, a succeeding exchange client. -/
def env_x : ComposerEnv :=
  { test_env_eq with
    get_accounts_balance := fun _ _ _ => 100
    get_account_balance := fun _ _ _ => 100
    get_system_liquidity_account := fun c =>
      .ok (match c with
        | .eth => acct_liq_eth
        | .stq => acct_liq_stq
        | .btc => acct_liq_btc) }

def input_x : CreateTransactionInput :=
  { id := 50, user_id := 7, from_ := 1, to_ := ⟨some 2, 0⟩,
    to_type := .account, to_currency := .stq, value := 10,
    value_currency := .eth, fee := 0, exchange_id := some 11,
    exchange_rate := some 2.0 }

/-- `input_x` with a `value_currency` matching neither account. -/
def input_x_bad : CreateTransactionInput :=
  { input_x with value_currency := .btc }

theorem claim_c6_witness :
    create_internal_multi_currency_tx env_x [] input_x acct_m_user acct_x_to
        11 2.0 =
      ([NewTransaction.toTransaction
          { id := 50, gid := 50, user_id := 7, dr_account_id := 1,
            cr_account_id := 40, currency := .eth, value := 10,
            status := .done, blockchain_tx_id := none, kind := .multiFrom,
            group_kind := .internalMulti, related_tx := none } 0,
        NewTransaction.toTransaction
          { id := 51, gid := 50, user_id := 7, dr_account_id := 2,
            cr_account_id := 42, currency := .stq, value := 10,
            status := .done, blockchain_tx_id := none, kind := .multiTo,
            group_kind := .internalMulti, related_tx := none } 0],
       .ok [NewTransaction.toTransaction
          { id := 50, gid := 50, user_id := 7, dr_account_id := 1,
            cr_account_id := 40, currency := .eth, value := 10,
            status := .done, blockchain_tx_id := none, kind := .multiFrom,
            group_kind := .internalMulti, related_tx := none } 0,
        NewTransaction.toTransaction
          { id := 51, gid := 50, user_id := 7, dr_account_id := 2,
            cr_account_id := 42, currency := .stq, value := 10,
            status := .done, blockchain_tx_id := none, kind := .multiTo,
            group_kind := .internalMulti, related_tx := none } 0]) :=
  (claim_c6_exchange_values env_x [] input_x acct_m_user acct_x_to 11 2.0).1
    acct_liq_eth acct_liq_stq rfl rfl rfl rfl rfl rfl
    (fun d => by show (10 : Nat) ≤ 100; decide)
    (fun d => by show (10 : Nat) ≤ 100; decide)

/-- C6 (counterexample): with `value_currency` equal to neither account
currency the composer fails with error kind `Internal` — not the
`InvalidInput` stated in spec §4.4.2 nor the `MalformedInput` stated in
spec §8 — and creates no postings. -/
theorem claim_c6_counterexample :
    create_internal_multi_currency_tx env_x [] input_x_bad acct_m_user
        acct_x_to 11 2.0 =
      ([], .error ⟨.invalidCurrency, .internal⟩) ∧
    ErrorKind.internal ≠ ErrorKind.invalidInput ∧
    ErrorKind.internal ≠ ErrorKind.malformedInput :=
  ⟨rfl, by decide, by decide⟩

structure FeesConfig where
  fee_upside : Nat
  btc_transaction_size : Nat
  eth_gas_limit : Nat
  stq_gas_limit : Nat

/-- Oracle environment of `BlockchainServiceImpl::estimate_withdrawal_fee`:
the fee configuration, the exchange client's `rate` call (`Role::System`;
the randomly generated request id is irrelevant and omitted), and the
three-argument `Amount::convert` (whose `amount.rs` is not under `src/`),
kept abstract. -/
structure EstimateEnv where
  config : FeesConfig
  rate : Currency → Currency → Amount → Except SErr Float
  convert : Amount → Currency → Currency → Float → Amount

/-- The estimate currency of blockchain.rs, lines 87-91: ETH for STQ
withdrawals (gas for ERC-20 transfers is paid in ETH), the withdrawal
currency otherwise. -/
def estimate_currency_of (withdrawal_currency : Currency) : Currency :=
  match withdrawal_currency with
  | .btc => Currency.btc
  | .eth => Currency.eth
  | .stq => Currency.eth

/-- The per-currency base unit of blockchain.rs, lines 111-115. -/
def base_unit (config : FeesConfig) (withdrawal_currency : Currency) : Amount :=
  match withdrawal_currency with
  | .btc => config.btc_transaction_size
  | .eth => config.eth_gas_limit
  | .stq => config.stq_gas_limit

/-- `BlockchainServiceImpl::estimate_withdrawal_fee`
(services/transactions/blockchain.rs, lines 78-130): strip the `fee_upside`
factor with `checked_div`, determine the estimate currency, convert the fee
into the estimate currency via a spot rate when the input fee currency
differs, then divide by the per-currency base unit; if the integer quotient
is below 1000 fall back to the floating-point ratio of the raw values. -/
def estimate_withdrawal_fee (env : EstimateEnv) (input_gross_fee : Amount)
    (input_fee_currency withdrawal_currency : Currency) :
    Except SErr FeeEstimate :=
  match Amount.checked_div input_gross_fee env.config.fee_upside with
  | none => .error ⟨.balanceOverflow, .internal⟩
  | some total_native =>
    match (if input_fee_currency = estimate_currency_of withdrawal_currency then
        (.ok total_native : Except SErr Amount)
      else
        match env.rate input_fee_currency
            (estimate_currency_of withdrawal_currency) total_native with
        | .error e => .error ⟨e.context, .internal⟩
        | .ok rate =>
          .ok (env.convert total_native input_fee_currency
            (estimate_currency_of withdrawal_currency) rate)) with
    | .error e => .error e
    | .ok total =>
      match Amount.checked_div total (base_unit env.config withdrawal_currency) with
      | none => .error ⟨.balanceOverflow, .internal⟩
      | some fee_price_int =>
        .ok { gross_fee := total,
              fee_price :=
                if fee_price_int < 1000 then
                  Float.ofNat total /
                    Float.ofNat (base_unit env.config withdrawal_currency)
                else Float.ofNat fee_price_int,
              currency := estimate_currency_of withdrawal_currency }

/-- C7: a successful `estimate_withdrawal_fee` returns ETH as estimate
currency for STQ withdrawals and the withdrawal currency itself otherwise,
and its `fee_price` is the integer quotient of the converted gross fee by
the per-currency base unit when that quotient is at least 1000, and the
floating-point ratio of the two quantities when the quotient is below
1000. -/
theorem claim_c7_fee_estimate (env : EstimateEnv) (input_gross_fee : Amount)
    (input_fee_currency withdrawal_currency : Currency) (est : FeeEstimate)
    (h : estimate_withdrawal_fee env input_gross_fee input_fee_currency
      withdrawal_currency = .ok est) :
    est.currency = (match withdrawal_currency with
      | .stq => Currency.eth
      | c => c) ∧
    ((1000 ≤ est.gross_fee / base_unit env.config withdrawal_currency →
      est.fee_price =
        Float.ofNat (est.gross_fee / base_unit env.config withdrawal_currency)) ∧
     (est.gross_fee / base_unit env.config withdrawal_currency < 1000 →
      est.fee_price = Float.ofNat est.gross_fee /
        Float.ofNat (base_unit env.config withdrawal_currency))) := by
  unfold estimate_withdrawal_fee at h
  rcases hdiv : Amount.checked_div input_gross_fee env.config.fee_upside with
    _ | total <;> rw [hdiv] at h
  · exact absurd h (by simp)
  simp only at h
  rcases htot : (if input_fee_currency =
        estimate_currency_of withdrawal_currency then
      (.ok total : Except SErr Amount)
    else
      match env.rate input_fee_currency
          (estimate_currency_of withdrawal_currency) total with
      | .error e => .error ⟨e.context, .internal⟩
      | .ok rate =>
        .ok (env.convert total input_fee_currency
          (estimate_currency_of withdrawal_currency) rate)) with e | total2 <;>
    rw [htot] at h
  · exact absurd h (by simp)
  simp only at h
  rcases hdiv2 : Amount.checked_div total2
      (base_unit env.config withdrawal_currency) with _ | fee_price_int <;>
    rw [hdiv2] at h
  · exact absurd h (by simp)
  simp only [Except.ok.injEq] at h
  subst h
  have hbase : base_unit env.config withdrawal_currency ≠ 0 := by
    intro hzero
    rw [hzero] at hdiv2
    simp [Amount.checked_div] at hdiv2
  have hq : fee_price_int =
      total2 / base_unit env.config withdrawal_currency := by
    unfold Amount.checked_div at hdiv2
    rw [if_neg hbase] at hdiv2
    exact (Option.some.inj hdiv2).symm
  subst hq
  refine ⟨?_, ?_, ?_⟩
  · cases withdrawal_currency <;> rfl
  · intro hge
    simp only [if_neg (Nat.not_lt.mpr hge)]
  · intro hlt
    simp only [if_pos hlt]

def fees_config_e : FeesConfig :=
  { fee_upside := 2, btc_transaction_size := 17, eth_gas_limit := 1000,
    stq_gas_limit := 23 }

def env_e : EstimateEnv where
  config := fees_config_e
  rate := fun _ _ _ => .ok 1.0
  convert := fun a _ _ _ => a

def est_e : FeeEstimate := ⟨2000000, Float.ofNat 2000, .eth⟩

theorem claim_c7_witness :
    est_e.currency = (match Currency.eth with
      | .stq => Currency.eth
      | c => c) ∧
    ((1000 ≤ est_e.gross_fee / base_unit env_e.config .eth →
      est_e.fee_price =
        Float.ofNat (est_e.gross_fee / base_unit env_e.config .eth)) ∧
     (est_e.gross_fee / base_unit env_e.config .eth < 1000 →
      est_e.fee_price = Float.ofNat est_e.gross_fee /
        Float.ofNat (base_unit env_e.config .eth))) :=
  claim_c7_fee_estimate env_e 4000000 .eth .eth est_e rfl

/-- Result of a converter call: Rust code that can panic (`unwrap`,
out-of-bounds indexing) is modelled with an explicit `crash` outcome. -/
inductive CRes (α : Type) where
  | crash : CRes α
  | err : SErr → CRes α
  | out : α → CRes α
deriving DecidableEq

/-- An entry of the `to` side of an on-chain transaction (address and
value); the converter reads `entry.address`. -/
structure BlockchainTxEntry where
  address : BlockchainAddress
  value : Amount
deriving DecidableEq

/-- The on-chain `BlockchainTransaction` as read by the converter: `from`
addresses and `to` entries (`blockchain_transaction.rs` is not under `src/`;
the fields are those the converter dereferences). -/
structure BlockchainTransaction where
  from_ : List BlockchainAddress
  to_ : List BlockchainTxEntry
deriving DecidableEq

/-- Modelled from the spec: §3 — a locally-recorded awaiting-confirmation
transaction with `from_`/`to_` addresses
(`pending_blockchain_transactions` row; its model file is not under
`src/`). -/
structure PendingBlockchainTransaction where
  hash : BlockchainTransactionId
  from_ : BlockchainAddress
  to_ : BlockchainAddress
  value : Amount
deriving DecidableEq

structure TransactionAddressInfo where
  account_id : Option AccountId
  blockchain_address : BlockchainAddress
deriving DecidableEq

/-- The caller-visible view reconstructed by the converter
(`TransactionOut` as built in converter.rs). -/
structure TransactionOut where
  id : TransactionId
  from_ : List TransactionAddressInfo
  to_ : TransactionAddressInfo
  from_value : Amount
  from_currency : Currency
  to_value : Amount
  to_currency : Currency
  fee : Amount
  status : TransactionStatus
  blockchain_tx_id : Option BlockchainTransactionId
  created_at : Nat
  updated_at : Nat
deriving DecidableEq

/-- Oracle environment of `ConverterServiceImpl`: the accounts, blockchain-
transactions and pending-blockchain-transactions repositories, and
`BlockchainTransaction::normalized` (whose model file is not under `src/`),
kept abstract.  `convert_external_transaction` never consults
`pending_get`. -/
structure ConverterEnv where
  accounts_get : AccountId → Option Account
  blockchain_get : BlockchainTransactionId → Option BlockchainTransaction
  pending_get : BlockchainTransactionId → Option PendingBlockchainTransaction
  normalized : BlockchainTransaction → Option BlockchainTransaction

/-- `ConverterServiceImpl::convert_deposit_transaction` (converter.rs,
lines 38-86). -/
def convert_deposit_transaction (env : ConverterEnv) :
    List Transaction → CRes TransactionOut
  | [tx] =>
    if tx.kind ≠ TransactionKind.deposit then
      .err ⟨.invalidTransactionStructure, .internal⟩
    else
      match tx.blockchain_tx_id with
      | none => .err ⟨.invalidTransactionStructure, .internal⟩
      | some hash =>
        match env.blockchain_get hash with
        | none => .err ⟨.invalidTransactionStructure, .internal⟩
        | some blockchain_tx =>
          match env.normalized blockchain_tx with
          | none => .crash
          | some normalized_tx =>
            match env.accounts_get tx.cr_account_id with
            | none => .err ⟨.invalidTransactionStructure, .internal⟩
            | some to_account =>
              .out
                { id := tx.gid,
                  from_ := normalized_tx.from_.map
                    (fun blockchain_address => ⟨none, blockchain_address⟩),
                  to_ := ⟨some tx.cr_account_id, to_account.address⟩,
                  from_value := tx.value, from_currency := tx.currency,
                  to_value := tx.value, to_currency := tx.currency, fee := 0,
                  status := tx.status, blockchain_tx_id := tx.blockchain_tx_id,
                  created_at := tx.created_at, updated_at := tx.updated_at }
  | _ => .err ⟨.invalidTransactionStructure, .internal⟩

/-- `ConverterServiceImpl::convert_internal_transaction` (converter.rs,
lines 90-123).  Note that the source loads both `from_account` and
`to_account` from `tx.dr_account_id` (lines 98-99) and `unwrap`s the repo
lookups. -/
def convert_internal_transaction (env : ConverterEnv) :
    List Transaction → CRes TransactionOut
  | [tx] =>
    if tx.kind ≠ TransactionKind.internal then
      .err ⟨.invalidTransactionStructure, .internal⟩
    else
      match env.accounts_get tx.dr_account_id with
      | none => .crash
      | some from_account =>
        match env.accounts_get tx.dr_account_id with
        | none => .crash
        | some to_account =>
          .out
            { id := tx.gid,
              from_ := [⟨some from_account.id, from_account.address⟩],
              to_ := ⟨some to_account.id, to_account.address⟩,
              from_value := tx.value, from_currency := tx.currency,
              to_value := tx.value, to_currency := tx.currency, fee := 0,
              status := tx.status, blockchain_tx_id := tx.blockchain_tx_id,
              created_at := tx.created_at, updated_at := tx.updated_at }
  | _ => .err ⟨.invalidTransactionStructure, .internal⟩

/-- `ConverterServiceImpl::convert_internal_multi_transaction`
(converter.rs, lines 127-165). -/
def convert_internal_multi_transaction (env : ConverterEnv)
    (transactions : List Transaction) : CRes TransactionOut :=
  if transactions.length ≠ 2 then
    .err ⟨.invalidTransactionStructure, .internal⟩
  else
    match transactions.find? fun tx => tx.kind = TransactionKind.multiFrom with
    | none => .err ⟨.invalidTransactionStructure, .internal⟩
    | some from_tx =>
      match transactions.find? fun tx => tx.kind = TransactionKind.multiTo with
      | none => .err ⟨.invalidTransactionStructure, .internal⟩
      | some to_tx =>
        match env.accounts_get from_tx.dr_account_id with
        | none => .crash
        | some from_account =>
          match env.accounts_get to_tx.cr_account_id with
          | none => .crash
          | some to_account =>
            .out
              { id := from_tx.gid,
                from_ := [⟨some from_account.id, from_account.address⟩],
                to_ := ⟨some to_account.id, to_account.address⟩,
                from_value := from_tx.value, from_currency := from_tx.currency,
                to_value := to_tx.value, to_currency := to_tx.currency,
                fee := 0, status := .done, blockchain_tx_id := none,
                created_at := from_tx.created_at,
                updated_at := from_tx.updated_at }

/-- `ConverterServiceImpl::convert_external_transaction` (converter.rs,
lines 171-223): find the `Withdrawal` and `Fee` postings, require the
withdrawal's `blockchain_tx_id` and debit account, read the on-chain
`BlockchainTransaction` for that id (the pending repository is never
consulted), normalize it (`unwrap`), and take the first `to` entry's
address as destination. -/
def convert_external_transaction (env : ConverterEnv)
    (transactions : List Transaction) : CRes TransactionOut :=
  match transactions.find? fun tx => tx.kind = TransactionKind.withdrawal with
  | none => .err ⟨.invalidTransactionStructure, .internal⟩
  | some withdrawal_tx =>
    match transactions.find? fun tx => tx.kind = TransactionKind.fee with
    | none => .err ⟨.invalidTransactionStructure, .internal⟩
    | some fee_tx =>
      match withdrawal_tx.blockchain_tx_id with
      | none => .err ⟨.invalidTransactionStructure, .internal⟩
      | some blockchain_tx_hash =>
        match env.accounts_get withdrawal_tx.dr_account_id with
        | none => .err ⟨.invalidTransactionStructure, .internal⟩
        | some withdrawal_account =>
          match env.blockchain_get blockchain_tx_hash with
          | none => .err ⟨.invalidTransactionStructure, .internal⟩
          | some blockchain_tx =>
            match env.normalized blockchain_tx with
            | none => .crash
            | some normalized_tx =>
              match normalized_tx.to_.head? with
              | none => .err ⟨.invalidTransactionStructure, .internal⟩
              | some entry =>
                .out
                  { id := withdrawal_tx.gid,
                    from_ :=
                      [⟨some withdrawal_account.id, withdrawal_account.address⟩],
                    to_ := ⟨none, entry.address⟩,
                    from_value := withdrawal_tx.value,
                    from_currency := withdrawal_tx.currency,
                    to_value := withdrawal_tx.value,
                    to_currency := withdrawal_tx.currency,
                    fee := fee_tx.value, status := withdrawal_tx.status,
                    blockchain_tx_id := withdrawal_tx.blockchain_tx_id,
                    created_at := withdrawal_tx.created_at,
                    updated_at := withdrawal_tx.updated_at }

/-- `ConverterServiceImpl::convert_external_multi_transaction`
(converter.rs, lines 228-255): split the group into the `MultiFrom`/
`MultiTo` pair and the rest, reuse the two reconstructions and combine. -/
def convert_external_multi_transaction (env : ConverterEnv)
    (transactions : List Transaction) : CRes TransactionOut :=
  match convert_internal_multi_transaction env
      (transactions.filter fun tx =>
        tx.kind = TransactionKind.multiFrom ∨
          tx.kind = TransactionKind.multiTo) with
  | .crash => .crash
  | .err e => .err e
  | .out currency_tx_out =>
    match convert_external_transaction env
        (transactions.filter fun tx =>
          ¬tx.kind = TransactionKind.multiFrom ∧
            ¬tx.kind = TransactionKind.multiTo) with
    | .crash => .crash
    | .err e => .err e
    | .out withdrawal_tx_out =>
      .out
        { id := currency_tx_out.id, from_ := currency_tx_out.from_,
          to_ := withdrawal_tx_out.to_,
          from_value := currency_tx_out.from_value,
          from_currency := currency_tx_out.from_currency,
          to_value := currency_tx_out.to_value,
          to_currency := currency_tx_out.to_currency,
          fee := withdrawal_tx_out.fee, status := withdrawal_tx_out.status,
          blockchain_tx_id := withdrawal_tx_out.blockchain_tx_id,
          created_at := withdrawal_tx_out.created_at,
          updated_at := withdrawal_tx_out.updated_at }

/-- `ConverterServiceImpl::convert_transaction` (converter.rs, lines
281-297): index `transactions[0]` (a panic on an empty vector), require a
common `gid`, and dispatch on the first posting's `group_kind`. -/
def convert_transaction (env : ConverterEnv) :
    List Transaction → CRes TransactionOut
  | [] => .crash
  | tx0 :: rest =>
    if (tx0 :: rest).any fun tx => tx.gid ≠ tx0.gid then
      .err ⟨.invalidTransactionStructure, .internal⟩
    else
      match tx0.group_kind with
      | .deposit => convert_deposit_transaction env (tx0 :: rest)
      | .internal => convert_internal_transaction env (tx0 :: rest)
      | .internalMulti => convert_internal_multi_transaction env (tx0 :: rest)
      | .withdrawal => convert_external_transaction env (tx0 :: rest)
      | .withdrawalMulti => convert_external_multi_transaction env (tx0 :: rest)
      | .approval => .err ⟨.invalidTransactionStructure, .internal⟩

/-- C10: `convert_transaction` panics (out-of-bounds `transactions[0]`) on
an empty input vector, and for every non-empty input whose postings do not
all share the first posting's `gid` it returns an `Internal` error rather
than a `TransactionOut`. -/
theorem claim_c10_convert_partiality :
    (∀ (env : ConverterEnv), convert_transaction env [] = .crash) ∧
    (∀ (env : ConverterEnv) (tx0 : Transaction) (rest : List Transaction)
      (tx : Transaction), tx ∈ tx0 :: rest → tx.gid ≠ tx0.gid →
      convert_transaction env (tx0 :: rest) =
        .err ⟨.invalidTransactionStructure, .internal⟩) := by
  constructor
  · intro env; rfl
  · intro env tx0 rest tx htx hne
    have hany : ((tx0 :: rest).any fun tx => tx.gid ≠ tx0.gid) = true :=
      List.any_eq_true.mpr ⟨tx, htx, decide_eq_true hne⟩
    simp only [convert_transaction]
    rw [if_pos hany]

/-- Converter scenario: accounts 1 and 2 in the repository. -/
def env_c : ConverterEnv where
  accounts_get := fun i =>
    if i = 1 then some test_account_dr
    else if i = 2 then some test_account_cr
    else none
  blockchain_get := fun _ => none
  pending_get := fun _ => none
  normalized := fun b => some b

def tx_c1 : Transaction :=
  { id := 9, gid := 9, user_id := 7, dr_account_id := 1, cr_account_id := 2,
    currency := .eth, value := 7, status := .done, blockchain_tx_id := none,
    kind := .internal, group_kind := .internal, related_tx := none,
    created_at := 0, updated_at := 0 }

def tx_c2 : Transaction :=
  { tx_c1 with id := 10, gid := 12 }

theorem claim_c10_witness :
    convert_transaction env_c [] = .crash ∧
    convert_transaction env_c [tx_c1, tx_c2] =
      .err ⟨.invalidTransactionStructure, .internal⟩ :=
  ⟨claim_c10_convert_partiality.1 env_c,
   claim_c10_convert_partiality.2 env_c tx_c1 [tx_c2] tx_c2
     (List.mem_cons_of_mem _ (List.mem_cons_self _ _)) (by decide)⟩

/-- C3: the Internal branch of the converter at a single `Internal` posting
whose debit account (id 1, address 11) differs from its credit account
(id 2, address 22).  The source loads `to_account` from `tx.dr_account_id`
(converter.rs line 99), so the returned `to` entry is the *debit* account's
info, not the credit account's as the spec states. -/
theorem claim_c3_internal_to_account_bug :
    convert_transaction env_c [tx_c1] =
      .out
        { id := 9, from_ := [⟨some 1, 11⟩], to_ := ⟨some 1, 11⟩,
          from_value := 7, from_currency := .eth, to_value := 7,
          to_currency := .eth, fee := 0, status := .done,
          blockchain_tx_id := none, created_at := 0, updated_at := 0 } ∧
    tx_c1.cr_account_id = 2 ∧
    (env_c.accounts_get 2).map Account.address = some 22 ∧
    (⟨some 1, (11 : Nat)⟩ : TransactionAddressInfo) ≠ ⟨some 2, 22⟩ :=
  ⟨rfl, rfl, rfl, by decide⟩

def pending_77 : PendingBlockchainTransaction :=
  { hash := 77, from_ := 31, to_ := 99, value := 8 }

/-- Withdrawal-group converter scenario: the on-chain record for hash 77 is
absent while its pending row exists. -/
def env_c4 : ConverterEnv where
  accounts_get := fun i =>
    if i = 1 then some acct_w_from
    else if i = 3 then some acct_w_dep1
    else if i = 5 then some acct_w_fees
    else none
  blockchain_get := fun _ => none
  pending_get := fun h => if h = 77 then some pending_77 else none
  normalized := fun b => some b

def tx_c4_w : Transaction :=
  { id := 30, gid := 30, user_id := 7, dr_account_id := 1, cr_account_id := 3,
    currency := .btc, value := 8, status := .pending,
    blockchain_tx_id := some 77, kind := .withdrawal,
    group_kind := .withdrawal, related_tx := none, created_at := 0,
    updated_at := 0 }

def tx_c4_f : Transaction :=
  { id := 31, gid := 30, user_id := 7, dr_account_id := 1, cr_account_id := 5,
    currency := .btc, value := 4, status := .done, blockchain_tx_id := none,
    kind := .fee, group_kind := .withdrawal, related_tx := none,
    created_at := 0, updated_at := 0 }

/-- C4 (counterexample): for a Withdrawal group whose referenced on-chain
`BlockchainTransaction` is absent, the converter fails with an `Internal`
error even though the pending row for the same hash exists — it never falls
back to the pending repository, contradicting the claim's "or from its
pending row when the on-chain record is absent". -/
theorem claim_c4_counterexample :
    env_c4.blockchain_get 77 = none ∧
    env_c4.pending_get 77 = some pending_77 ∧
    convert_transaction env_c4 [tx_c4_w, tx_c4_f] =
      .err ⟨.invalidTransactionStructure, .internal⟩ :=
  ⟨rfl, rfl, rfl⟩

/-- C4 (amended): for a Withdrawal group with a `Withdrawal` and a `Fee`
posting, the converter reads the destination address from the first `to`
entry of the on-chain `BlockchainTransaction` referenced by
`Withdrawal.blockchain_tx_id`, with `fee = Fee.value` and
`status = Withdrawal.status`; when the on-chain record is absent it fails
with an `Internal` error (the pending row is not consulted), and the
structural mismatches (no `Withdrawal` posting, no `Fee` posting, a null
`blockchain_tx_id`) also yield `Internal` errors. -/
theorem claim_c4_withdrawal_conversion :
    (∀ (env : ConverterEnv) (transactions : List Transaction)
      (withdrawal_tx fee_tx : Transaction) (hash : BlockchainTransactionId)
      (withdrawal_account : Account)
      (blockchain_tx normalized_tx : BlockchainTransaction)
      (entry : BlockchainTxEntry) (rest : List BlockchainTxEntry),
      (transactions.find? fun tx => tx.kind = TransactionKind.withdrawal) =
        some withdrawal_tx →
      (transactions.find? fun tx => tx.kind = TransactionKind.fee) =
        some fee_tx →
      withdrawal_tx.blockchain_tx_id = some hash →
      env.accounts_get withdrawal_tx.dr_account_id = some withdrawal_account →
      env.blockchain_get hash = some blockchain_tx →
      env.normalized blockchain_tx = some normalized_tx →
      normalized_tx.to_ = entry :: rest →
      convert_external_transaction env transactions =
        .out
          { id := withdrawal_tx.gid,
            from_ :=
              [⟨some withdrawal_account.id, withdrawal_account.address⟩],
            to_ := ⟨none, entry.address⟩,
            from_value := withdrawal_tx.value,
            from_currency := withdrawal_tx.currency,
            to_value := withdrawal_tx.value,
            to_currency := withdrawal_tx.currency,
            fee := fee_tx.value, status := withdrawal_tx.status,
            blockchain_tx_id := withdrawal_tx.blockchain_tx_id,
            created_at := withdrawal_tx.created_at,
            updated_at := withdrawal_tx.updated_at }) ∧
    (∀ (env : ConverterEnv) (transactions : List Transaction)
      (withdrawal_tx fee_tx : Transaction) (hash : BlockchainTransactionId)
      (withdrawal_account : Account),
      (transactions.find? fun tx => tx.kind = TransactionKind.withdrawal) =
        some withdrawal_tx →
      (transactions.find? fun tx => tx.kind = TransactionKind.fee) =
        some fee_tx →
      withdrawal_tx.blockchain_tx_id = some hash →
      env.accounts_get withdrawal_tx.dr_account_id = some withdrawal_account →
      env.blockchain_get hash = none →
      convert_external_transaction env transactions =
        .err ⟨.invalidTransactionStructure, .internal⟩) ∧
    (∀ (env : ConverterEnv) (transactions : List Transaction),
      (transactions.find? fun tx => tx.kind = TransactionKind.withdrawal) =
        none →
      convert_external_transaction env transactions =
        .err ⟨.invalidTransactionStructure, .internal⟩) ∧
    (∀ (env : ConverterEnv) (transactions : List Transaction)
      (withdrawal_tx : Transaction),
      (transactions.find? fun tx => tx.kind = TransactionKind.withdrawal) =
        some withdrawal_tx →
      (transactions.find? fun tx => tx.kind = TransactionKind.fee) = none →
      convert_external_transaction env transactions =
        .err ⟨.invalidTransactionStructure, .internal⟩) ∧
    (∀ (env : ConverterEnv) (transactions : List Transaction)
      (withdrawal_tx fee_tx : Transaction),
      (transactions.find? fun tx => tx.kind = TransactionKind.withdrawal) =
        some withdrawal_tx →
      (transactions.find? fun tx => tx.kind = TransactionKind.fee) =
        some fee_tx →
      withdrawal_tx.blockchain_tx_id = none →
      convert_external_transaction env transactions =
        .err ⟨.invalidTransactionStructure, .internal⟩) := by
  refine ⟨?_, ?_, ?_, ?_, ?_⟩
  · intro env transactions withdrawal_tx fee_tx hash withdrawal_account
      blockchain_tx normalized_tx entry rest hw hf hh hacc hbc hnorm hto
    simp [convert_external_transaction, hw, hf, hh, hacc, hbc, hnorm, hto]
  · intro env transactions withdrawal_tx fee_tx hash withdrawal_account hw hf
      hh hacc hbc
    simp [convert_external_transaction, hw, hf, hh, hacc, hbc]
  · intro env transactions hw
    simp [convert_external_transaction, hw]
  · intro env transactions withdrawal_tx hw hf
    simp [convert_external_transaction, hw, hf]
  · intro env transactions withdrawal_tx fee_tx hw hf hh
    simp [convert_external_transaction, hw, hf, hh]

def btx_77 : BlockchainTransaction := { from_ := [31], to_ := [⟨99, 8⟩] }

/-- Like `env_c4` but with the on-chain record for hash 77 present. -/
def env_c4b : ConverterEnv :=
  { env_c4 with blockchain_get := fun h => if h = 77 then some btx_77 else none }

theorem claim_c4_witness :
    convert_external_transaction env_c4b [tx_c4_w, tx_c4_f] =
      .out
        { id := 30, from_ := [⟨some 1, 10⟩], to_ := ⟨none, 99⟩,
          from_value := 8, from_currency := .btc, to_value := 8,
          to_currency := .btc, fee := 4, status := .pending,
          blockchain_tx_id := some 77, created_at := 0, updated_at := 0 } ∧
    convert_external_transaction env_c4 [tx_c4_w, tx_c4_f] =
      .err ⟨.invalidTransactionStructure, .internal⟩ ∧
    convert_external_transaction env_c4 [tx_c4_f] =
      .err ⟨.invalidTransactionStructure, .internal⟩ :=
  ⟨claim_c4_withdrawal_conversion.1 env_c4b [tx_c4_w, tx_c4_f] tx_c4_w tx_c4_f
     77 acct_w_from btx_77 btx_77 ⟨99, 8⟩ [] rfl rfl rfl rfl rfl rfl rfl,
   claim_c4_withdrawal_conversion.2.1 env_c4 [tx_c4_w, tx_c4_f] tx_c4_w
     tx_c4_f 77 acct_w_from rfl rfl rfl rfl rfl,
   claim_c4_withdrawal_conversion.2.2.1 env_c4 [tx_c4_f] rfl⟩

/-- Modelled from the spec: §6 `accounts_repo.get(id)` (repos/accounts.rs is
not under `src/`) — the stored account with the given id. -/
def accounts_repo_get (store : List Account) (id : AccountId) : Option Account :=
  store.find? fun a => a.id = id

/-- Modelled from the spec: §6 `accounts_repo.get_by_address(addr, currency,
kind)` — the owned account at the address with that currency and kind. -/
def get_by_address (store : List Account) (address : BlockchainAddress)
    (currency : Currency) (kind : AccountKind) : Option Account :=
  store.find? fun a =>
    a.address = address ∧ a.currency = currency ∧ a.kind = kind

/-- Modelled from the spec: §6 `accounts_repo.filter_by_address(addr)` —
every owned account at the address; the signature takes only the address,
so the result cannot be restricted by currency. -/
def filter_by_address (store : List Account) (address : BlockchainAddress) :
    List Account :=
  store.filter fun a => a.address = address

/-- Oracle environment of the classifier (`services/transactions.rs`): the
accounts store and the declarative input validation (whose rules live on
the input struct, not under `src/`). -/
structure ClassifierEnv where
  store : List Account
  validate : CreateTransactionInput → Option SErr

/-- The four transaction types of `services/transactions.rs`, lines 41-47. -/
inductive TransactionType where
  | internal : Account → Account → TransactionType
  | withdrawal : Account → BlockchainAddress → Currency → TransactionType
  | internalExchange : Account → Account → ExchangeId → Float → TransactionType
  | withdrawalExchange :
      Account → BlockchainAddress → Currency → ExchangeId → Float →
        TransactionType

/-- `TransactionsServiceImpl::validate_and_classify_transaction`
(services/transactions.rs, lines 114-204). -/
def validate_and_classify_transaction (env : ClassifierEnv)
    (input : CreateTransactionInput) : Except SErr TransactionType :=
  match env.validate input with
  | some _ => .error ⟨.validation, .invalidInput⟩
  | none =>
    match accounts_repo_get env.store input.from_ with
    | none => .error ⟨.noAccount, .notFound⟩
    | some from_account =>
      match input.to_type with
      | .account =>
        match input.to_.to_account_id with
        | none => .error ⟨.invalidUuid, .malformedInput⟩
        | some to_account_id =>
          match accounts_repo_get env.store to_account_id with
          | none => .error ⟨.noAccount, .notFound⟩
          | some to_account =>
            if to_account.currency ≠ input.to_currency then
              .error ⟨.invalidCurrency, .malformedInput⟩
            else if from_account.currency ≠ to_account.currency then
              match input.exchange_id, input.exchange_rate with
              | some exchange_id, some exchange_rate =>
                if input.value_currency ≠ from_account.currency ∧
                    input.value_currency ≠ to_account.currency then
                  .error ⟨.invalidCurrency, .malformedInput⟩
                else
                  .ok (.internalExchange from_account to_account exchange_id
                    exchange_rate)
              | _, _ => .error ⟨.missingExchangeRate, .malformedInput⟩
            else .ok (.internal from_account to_account)
      | .address =>
        match get_by_address env.store input.to_.to_account_address
            input.to_currency .cr with
        | none =>
          if (filter_by_address env.store
              input.to_.to_account_address).length ≠ 0 then
            .error ⟨.invalidCurrency, .malformedInput⟩
          else if from_account.currency ≠ input.to_currency then
            match input.exchange_id, input.exchange_rate with
            | some exchange_id, some exchange_rate =>
              .ok (.withdrawalExchange from_account
                input.to_.to_account_address input.to_currency exchange_id
                exchange_rate)
            | _, _ => .error ⟨.missingExchangeRate, .malformedInput⟩
          else
            .ok (.withdrawal from_account input.to_.to_account_address
              input.to_currency)
        | some to_account =>
          if from_account.currency ≠ to_account.currency then
            match input.exchange_id, input.exchange_rate with
            | some exchange_id, some exchange_rate =>
              .ok (.internalExchange from_account to_account exchange_id
                exchange_rate)
            | _, _ => .error ⟨.missingExchangeRate, .malformedInput⟩
          else .ok (.internal from_account to_account)

/-- C8 (amended): in the Address branch, when no owned Cr account exists at
(address, to_currency): if *any* owned account at that address exists —
regardless of its currency or kind — classification fails with
`MalformedInput`; otherwise a same-currency intent is classified as
`Withdrawal` and a cross-currency intent as `WithdrawalExchange`, the
latter requiring `exchange_id` and `exchange_rate` (else
`MalformedInput`). -/
theorem claim_c8_address_classification (env : ClassifierEnv)
    (input : CreateTransactionInput) (from_account : Account)
    (hval : env.validate input = none)
    (hfrom : accounts_repo_get env.store input.from_ = some from_account)
    (htype : input.to_type = .address)
    (hget : get_by_address env.store input.to_.to_account_address
      input.to_currency .cr = none) :
    (filter_by_address env.store input.to_.to_account_address ≠ [] →
      validate_and_classify_transaction env input =
        .error ⟨.invalidCurrency, .malformedInput⟩) ∧
    (filter_by_address env.store input.to_.to_account_address = [] →
      (from_account.currency = input.to_currency →
        validate_and_classify_transaction env input =
          .ok (.withdrawal from_account input.to_.to_account_address
            input.to_currency)) ∧
      (from_account.currency ≠ input.to_currency →
        (∀ (exchange_id : ExchangeId) (exchange_rate : Float),
          input.exchange_id = some exchange_id →
          input.exchange_rate = some exchange_rate →
          validate_and_classify_transaction env input =
            .ok (.withdrawalExchange from_account
              input.to_.to_account_address input.to_currency exchange_id
              exchange_rate)) ∧
        ((input.exchange_id = none ∨ input.exchange_rate = none) →
          validate_and_classify_transaction env input =
            .error ⟨.missingExchangeRate, .malformedInput⟩))) := by
  constructor
  · intro hne
    simp [validate_and_classify_transaction, hval, hfrom, htype, hget]
    intro h
    exact absurd h hne
  · intro hnil
    constructor
    · intro hsame
      simp [validate_and_classify_transaction, hval, hfrom, htype, hget,
        hnil, hsame]
    · intro hdiff
      constructor
      · intro exchange_id exchange_rate hid hrate
        simp [validate_and_classify_transaction, hval, hfrom, htype, hget,
          hnil, hdiff, hid, hrate]
      · intro hor
        rcases hid : input.exchange_id with _ | eid <;>
          rcases hrate : input.exchange_rate with _ | rate <;>
          simp [validate_and_classify_transaction, hval, hfrom, htype, hget,
            hnil, hdiff, hid, hrate]
        rcases hor with h | h
        · rw [hid] at h; exact absurd h (by simp)
        · rw [hrate] at h; exact absurd h (by simp)

def acct_z_from : Account :=
  { id := 1, user_id := 7, currency := .eth, kind := .cr, address := 10 }

def acct_z_dr : Account :=
  { id := 2, user_id := 7, currency := .eth, kind := .dr, address := 42 }

/-- Classifier scenario: the user owns an ETH Cr account (address 10) and a
same-currency ETH Dr deposit account at address 42. -/
def env_z : ClassifierEnv where
  store := [acct_z_from, acct_z_dr]
  validate := fun _ => none

/-- Like `env_z` but with no account at address 42. -/
def env_z2 : ClassifierEnv where
  store := [acct_z_from]
  validate := fun _ => none

def input_z : CreateTransactionInput :=
  { id := 60, user_id := 7, from_ := 1, to_ := ⟨none, 42⟩,
    to_type := .address, to_currency := .eth, value := 5,
    value_currency := .eth, fee := 0, exchange_id := none,
    exchange_rate := none }

/-- `input_z` with a cross-currency destination. -/
def input_z_x : CreateTransactionInput :=
  { input_z with to_currency := Currency.btc }

/-- C8 (counterexample): no owned Cr account exists at (42, ETH) and no
owned account at 42 has a currency other than ETH (the only one there is a
same-currency Dr deposit account), so by the claim the intent should be
classified as Withdrawal; the code instead fails with `MalformedInput`
because `filter_by_address` flags *any* account at the address. -/
theorem claim_c8_counterexample :
    get_by_address env_z.store 42 .eth .cr = none ∧
    (env_z.store.filter fun a => a.address = 42 ∧ a.currency ≠ Currency.eth) =
      [] ∧
    acct_z_from.currency = input_z.to_currency ∧
    validate_and_classify_transaction env_z input_z =
      .error ⟨.invalidCurrency, .malformedInput⟩ :=
  ⟨rfl, rfl, rfl, rfl⟩

theorem claim_c8_witness :
    validate_and_classify_transaction env_z input_z =
      .error ⟨.invalidCurrency, .malformedInput⟩ ∧
    validate_and_classify_transaction env_z2 input_z =
      .ok (.withdrawal acct_z_from 42 .eth) ∧
    validate_and_classify_transaction env_z2 input_z_x =
      .error ⟨.missingExchangeRate, .malformedInput⟩ :=
  ⟨(claim_c8_address_classification env_z input_z acct_z_from rfl rfl rfl
      rfl).1 (by decide),
   ((claim_c8_address_classification env_z2 input_z acct_z_from rfl rfl rfl
      rfl).2 rfl).1 rfl,
   (((claim_c8_address_classification env_z2 input_z_x acct_z_from rfl rfl
      rfl rfl).2 rfl).2 (by decide)).2 (Or.inl rfl)⟩

/-- First-occurrence deduplication, with an accumulator of already-seen
keys.  The source collects the groups from a `HashMap` whose value order is
unspecified; the embedding fixes the order of first occurrence, and the
properties proved about `group_transactions` are invariant under any
reordering of the groups. -/
def dedup_first_aux {α : Type} [DecidableEq α] (seen : List α) :
    List α → List α
  | [] => []
  | a :: as =>
    if a ∈ seen then dedup_first_aux seen as
    else a :: dedup_first_aux (a :: seen) as

def dedup_first {α : Type} [DecidableEq α] (l : List α) : List α :=
  dedup_first_aux [] l

lemma mem_dedup_first_aux {α : Type} [DecidableEq α] {a : α} :
    ∀ {l seen : List α}, a ∈ dedup_first_aux seen l ↔ a ∈ l ∧ a ∉ seen := by
  intro l
  induction l with
  | nil => simp [dedup_first_aux]
  | cons b bs ih =>
    intro seen
    by_cases hb : b ∈ seen
    · rw [dedup_first_aux, if_pos hb, ih]
      constructor
      · rintro ⟨h1, h2⟩
        exact ⟨List.mem_cons_of_mem _ h1, h2⟩
      · rintro ⟨h1, h2⟩
        rcases List.mem_cons.mp h1 with rfl | h1
        · exact absurd hb h2
        · exact ⟨h1, h2⟩
    · rw [dedup_first_aux, if_neg hb]
      by_cases hab : a = b
      · subst hab
        simp [ih, hb]
      · simp [ih, hab]

lemma mem_dedup_first {α : Type} [DecidableEq α] {a : α} {l : List α} :
    a ∈ dedup_first l ↔ a ∈ l := by
  rw [dedup_first, mem_dedup_first_aux]
  simp

lemma nodup_dedup_first_aux {α : Type} [DecidableEq α] :
    ∀ (l seen : List α), (dedup_first_aux seen l).Nodup := by
  intro l
  induction l with
  | nil => intro seen; simp [dedup_first_aux]
  | cons b bs ih =>
    intro seen
    by_cases hb : b ∈ seen
    · rw [dedup_first_aux, if_pos hb]
      exact ih seen
    · rw [dedup_first_aux, if_neg hb]
      refine List.nodup_cons.mpr ⟨?_, ih (b :: seen)⟩
      intro hmem
      exact (mem_dedup_first_aux.mp hmem).2 (List.mem_cons_self _ _)

lemma nodup_dedup_first {α : Type} [DecidableEq α] (l : List α) :
    (dedup_first l).Nodup :=
  nodup_dedup_first_aux l []

lemma group_filter_perm (gs : List TransactionId) (txs : List Transaction)
    (hnd : gs.Nodup) (hcov : ∀ tx ∈ txs, tx.gid ∈ gs) :
    ((gs.map fun g => txs.filter fun tx => tx.gid = g).flatten).Perm txs := by
  induction gs generalizing txs with
  | nil =>
    cases txs with
    | nil => simp
    | cons t ts =>
      exact absurd (hcov t (List.mem_cons_self t ts)) (List.not_mem_nil _)
  | cons g gs ih =>
    have hg_not_mem : g ∉ gs := (List.nodup_cons.mp hnd).1
    have hmap : (gs.map fun h => txs.filter fun tx => tx.gid = h) =
        gs.map fun h =>
          (txs.filter fun tx => ¬tx.gid = g).filter fun tx => tx.gid = h := by
      apply List.map_congr_left
      intro h hh
      have hne : h ≠ g := fun e => hg_not_mem (e ▸ hh)
      rw [List.filter_filter]
      apply List.filter_congr
      intro tx _
      by_cases hx : tx.gid = h <;> simp [hx, hne]
    have hcov2 : ∀ tx ∈ (txs.filter fun tx => ¬tx.gid = g), tx.gid ∈ gs := by
      intro tx htx
      have hmem := List.mem_filter.mp htx
      rcases List.mem_cons.mp (hcov tx hmem.1) with h | h
      · exact absurd h (by simpa using hmem.2)
      · exact h
    have hperm := ih (txs.filter fun tx => ¬tx.gid = g)
      (List.nodup_cons.mp hnd).2 hcov2
    rw [List.map_cons, List.flatten_cons, hmap]
    have hsplit : ((txs.filter fun tx => tx.gid = g) ++
        (txs.filter fun tx => ¬tx.gid = g)).Perm txs := by
      have hpred : (txs.filter fun tx => ¬tx.gid = g) =
          txs.filter fun tx => !(decide (tx.gid = g)) := by
        simp [decide_not]
      rw [hpred]
      exact List.filter_append_perm _ txs
    exact ((hperm.append_left (txs.filter fun tx => tx.gid = g)).trans hsplit)

/-- `group_transactions` (services/transactions/mod.rs, lines 579-586):
group postings by `gid`, preserving input order inside each group.  The
source inserts into a `HashMap` keyed by `gid` (pushing in input order) and
collects the values in unspecified order; the embedding lists the groups in
order of first occurrence of their `gid`. -/
def group_transactions (transactions : List Transaction) :
    List (List Transaction) :=
  (dedup_first (transactions.map fun tx => tx.gid)).map fun g =>
    transactions.filter fun tx => tx.gid = g

/-- C9: `group_transactions` partitions its input — the concatenation of
the output groups is a permutation of the input, every group is non-empty,
every group is a sublist of the input (so input order is preserved inside a
group), and two postings land in the same group exactly when their `gid`s
are equal. -/
theorem claim_c9_group_partition (transactions : List Transaction) :
    ((group_transactions transactions).flatten).Perm transactions ∧
    (∀ g ∈ group_transactions transactions, g ≠ []) ∧
    (∀ g ∈ group_transactions transactions, g.Sublist transactions) ∧
    (∀ (i j : Nat) (hi : i < (group_transactions transactions).length)
      (hj : j < (group_transactions transactions).length),
      ∀ a ∈ (group_transactions transactions)[i],
      ∀ b ∈ (group_transactions transactions)[j],
      (a.gid = b.gid ↔ i = j)) := by
  refine ⟨?_, ?_, ?_, ?_⟩
  · exact group_filter_perm _ transactions
      (nodup_dedup_first _)
      (fun tx htx => mem_dedup_first.mpr (List.mem_map_of_mem _ htx))
  · intro g hg
    rcases List.mem_map.mp hg with ⟨gid, hgid, rfl⟩
    have : gid ∈ transactions.map fun tx => tx.gid := mem_dedup_first.mp hgid
    rcases List.mem_map.mp this with ⟨tx, htx, rfl⟩
    intro hnil
    have : tx ∈ transactions.filter fun t => t.gid = tx.gid :=
      List.mem_filter.mpr ⟨htx, by simp⟩
    rw [hnil] at this
    exact List.not_mem_nil _ this
  · intro g hg
    rcases List.mem_map.mp hg with ⟨gid, _, rfl⟩
    exact List.filter_sublist transactions
  · intro i j hi hj a ha b hb
    have hlen : (group_transactions transactions).length =
        (dedup_first (transactions.map fun tx => tx.gid)).length := by
      simp [group_transactions]
    have hi2 : i < (dedup_first (transactions.map fun tx => tx.gid)).length :=
      hlen ▸ hi
    have hj2 : j < (dedup_first (transactions.map fun tx => tx.gid)).length :=
      hlen ▸ hj
    have hgi : (group_transactions transactions)[i] =
        transactions.filter fun tx =>
          tx.gid = (dedup_first (transactions.map fun t => t.gid))[i] := by
      simp [group_transactions]
    have hgj : (group_transactions transactions)[j] =
        transactions.filter fun tx =>
          tx.gid = (dedup_first (transactions.map fun t => t.gid))[j] := by
      simp [group_transactions]
    rw [hgi] at ha
    rw [hgj] at hb
    have ha2 : a.gid = (dedup_first (transactions.map fun t => t.gid))[i] := by
      simpa using (List.mem_filter.mp ha).2
    have hb2 : b.gid = (dedup_first (transactions.map fun t => t.gid))[j] := by
      simpa using (List.mem_filter.mp hb).2
    rw [ha2, hb2]
    constructor
    · intro heq
      have := (nodup_dedup_first
        (transactions.map fun t => t.gid)).get_inj_iff
        (i := ⟨i, hi2⟩) (j := ⟨j, hj2⟩)
      simpa using this.mp (by simpa using heq)
    · intro heq
      subst heq
      rfl

def txs_g : List Transaction := [tx_c1, tx_c2, { tx_c1 with id := 11 }]

theorem claim_c9_witness :
    group_transactions txs_g = [[tx_c1, { tx_c1 with id := 11 }], [tx_c2]] ∧
    ((group_transactions txs_g).flatten).Perm txs_g :=
  ⟨by decide, (claim_c9_group_partition txs_g).1⟩
